import Mathlib

/-!
Verification development for the i3-snapshot program (`src/main.cpp`).

The program's C++ strings are byte strings; we model them as `List Nat`
(each element a byte value).  Capture-side traversal (`findWindows`),
the record codec, the restore command synthesis (`moveWindow`) and the
restore read loop of `main` are embedded as executable Lean functions.
-/

/-- Byte string of an ASCII Lean string literal. -/
def bytes (s : String) : List Nat := s.toList.map Char.toNat

/-- `std::isspace` in the C locale: space, tab, newline, vtab, formfeed, CR. -/
def isSpaceB (b : Nat) : Bool :=
  b == 32 || b == 9 || b == 10 || b == 11 || b == 12 || b == 13

/-- ASCII decimal digit test. -/
def isDigitB (b : Nat) : Bool := decide (48 ≤ b ∧ b ≤ 57)

/-- The base64 alphabet, as a map from a 6-bit value to an ASCII byte. -/
def b64Char (k : Nat) : Nat :=
  if k < 26 then 65 + k
  else if k < 52 then 97 + (k - 26)
  else if k < 62 then 48 + (k - 52)
  else if k = 62 then 43 else 47

/-- Inverse of `b64Char` on alphabet bytes (0 elsewhere). -/
def b64Val (c : Nat) : Nat :=
  if 65 ≤ c ∧ c ≤ 90 then c - 65
  else if 97 ≤ c ∧ c ≤ 122 then c - 71
  else if 48 ≤ c ∧ c ≤ 57 then c + 4
  else if c = 43 then 62
  else if c = 47 then 63
  else 0

/-- Modelled from the spec: `main.cpp` includes `base64.h`, whose
implementation file is part of the repository but absent from `src/`.
The spec describes it as the standard binary-safe reversible base64
text encoding applied to the three name fields; byte 61 is `=` padding. -/
def base64_encode : List Nat → List Nat
  | [] => []
  | [a] => [b64Char (a / 4), b64Char (a % 4 * 16), 61, 61]
  | [a, b] => [b64Char (a / 4), b64Char (a % 4 * 16 + b / 16), b64Char (b % 16 * 4), 61]
  | a :: b :: c :: rest =>
      b64Char (a / 4) :: b64Char (a % 4 * 16 + b / 16) ::
      b64Char (b % 16 * 4 + c / 64) :: b64Char (c % 64) :: base64_encode rest

/-- Modelled from the spec: inverse transform of `base64_encode`
(see `base64_encode` for the provenance of the missing source file). -/
def base64_decode : List Nat → List Nat
  | w :: x :: y :: z :: rest =>
      if y = 61 then [b64Val w * 4 + b64Val x / 16]
      else if z = 61 then
        [b64Val w * 4 + b64Val x / 16, b64Val x % 16 * 16 + b64Val y / 4]
      else
        (b64Val w * 4 + b64Val x / 16) :: (b64Val x % 16 * 16 + b64Val y / 4) ::
        (b64Val y % 4 * 64 + b64Val z) :: base64_decode rest
  | _ => []

theorem b64Val_b64Char : ∀ k < 64, b64Val (b64Char k) = k := by decide

theorem b64Char_ne_61 : ∀ k < 64, b64Char k ≠ 61 := by decide

theorem b64Char_not_space : ∀ k, isSpaceB (b64Char k) = false := by
  intro k
  unfold b64Char isSpaceB
  split <;> [skip; split <;> [skip; split <;> [skip; split]]] <;>
    simp only [Bool.or_eq_false_iff, beq_eq_false_iff_ne, ne_eq] <;> omega

theorem base64_decode_encode (s : List Nat) (h : ∀ b ∈ s, b < 256) :
    base64_decode (base64_encode s) = s := by
  match s with
  | [] => rfl
  | [a] =>
      have ha : a < 256 := h a (by simp)
      show base64_decode [b64Char (a / 4), b64Char (a % 4 * 16), 61, 61] = [a]
      rw [base64_decode, if_pos rfl]
      rw [b64Val_b64Char (a / 4) (by omega), b64Val_b64Char (a % 4 * 16) (by omega)]
      simp only [List.cons.injEq, and_true]
      omega
  | [a, b] =>
      have ha : a < 256 := h a (by simp)
      have hb : b < 256 := h b (by simp)
      show base64_decode [b64Char (a / 4), b64Char (a % 4 * 16 + b / 16),
        b64Char (b % 16 * 4), 61] = [a, b]
      rw [base64_decode, if_neg (b64Char_ne_61 (b % 16 * 4) (by omega)), if_pos rfl]
      rw [b64Val_b64Char (a / 4) (by omega), b64Val_b64Char (a % 4 * 16 + b / 16) (by omega),
        b64Val_b64Char (b % 16 * 4) (by omega)]
      simp only [List.cons.injEq, and_true]
      omega
  | a :: b :: c :: rest =>
      have ha : a < 256 := h a (by simp)
      have hb : b < 256 := h b (by simp)
      have hc : c < 256 := h c (by simp)
      have ih : base64_decode (base64_encode rest) = rest :=
        base64_decode_encode rest (fun x hx => h x (by simp [hx]))
      show base64_decode (b64Char (a / 4) :: b64Char (a % 4 * 16 + b / 16) ::
        b64Char (b % 16 * 4 + c / 64) :: b64Char (c % 64) :: base64_encode rest) =
        a :: b :: c :: rest
      rw [base64_decode, if_neg (b64Char_ne_61 (b % 16 * 4 + c / 64) (by omega)),
        if_neg (b64Char_ne_61 (c % 64) (by omega))]
      rw [b64Val_b64Char (a / 4) (by omega), b64Val_b64Char (a % 4 * 16 + b / 16) (by omega),
        b64Val_b64Char (b % 16 * 4 + c / 64) (by omega), b64Val_b64Char (c % 64) (by omega)]
      rw [ih]
      simp only [List.cons.injEq, and_true]
      refine ⟨by omega, by omega, by omega⟩
termination_by s.length

theorem base64_encode_not_space (s : List Nat) :
    ∀ b ∈ base64_encode s, isSpaceB b = false := by
  match s with
  | [] => intro b hb; simp [base64_encode] at hb
  | [a] =>
      intro b hb
      simp only [base64_encode, List.mem_cons, List.not_mem_nil, or_false] at hb
      rcases hb with h | h | h | h <;> subst h <;>
        first | exact b64Char_not_space _ | rfl
  | [a, c] =>
      intro b hb
      simp only [base64_encode, List.mem_cons, List.not_mem_nil, or_false] at hb
      rcases hb with h | h | h | h <;> subst h <;>
        first | exact b64Char_not_space _ | rfl
  | a :: c :: d :: rest =>
      intro b hb
      simp only [base64_encode, List.mem_cons] at hb
      rcases hb with h | h | h | h | h
      · subst h; exact b64Char_not_space _
      · subst h; exact b64Char_not_space _
      · subst h; exact b64Char_not_space _
      · subst h; exact b64Char_not_space _
      · exact base64_encode_not_space rest b h
termination_by s.length

theorem base64_encode_ne_nil (s : List Nat) (h : s ≠ []) : base64_encode s ≠ [] := by
  match s with
  | [] => exact absurd rfl h
  | [a] => simp [base64_encode]
  | [a, b] => simp [base64_encode]
  | a :: b :: c :: rest => simp [base64_encode]

/-- Fuel-driven digit expansion (structural, so the kernel can evaluate it). -/
def natToDecGo (fuel : Nat) (n : Nat) : List Nat :=
  match fuel with
  | 0 => []
  | f + 1 => if n < 10 then [48 + n] else natToDecGo f (n / 10) ++ [48 + n % 10]

/-- Decimal ASCII rendering of a natural, as `std::to_string` / `operator<<`
produce for unsigned integers. -/
def natToDec (n : Nat) : List Nat := natToDecGo (n + 1) n

/-- Value of a list of ASCII digit bytes, most significant first. -/
def digitsVal (ds : List Nat) : Nat :=
  ds.foldl (fun a d => a * 10 + (d - 48)) 0

theorem digitsVal_append (ds : List Nat) (d : Nat) :
    digitsVal (ds ++ [d]) = digitsVal ds * 10 + (d - 48) := by
  unfold digitsVal
  rw [List.foldl_append]
  rfl

theorem natToDecGo_fuel (n : Nat) (f : Nat) (h : n < f) : natToDecGo f n = natToDec n := by
  match f with
  | 0 => omega
  | f' + 1 =>
      by_cases h10 : n < 10
      · simp [natToDecGo, natToDec, h10]
      · have hd : n / 10 < n := by omega
        have ih1 : natToDecGo f' (n / 10) = natToDec (n / 10) :=
          natToDecGo_fuel (n / 10) f' (by omega)
        have ih2 : natToDecGo n (n / 10) = natToDec (n / 10) :=
          natToDecGo_fuel (n / 10) n hd
        rw [show natToDecGo (f' + 1) n = natToDecGo f' (n / 10) ++ [48 + n % 10] by
            simp [natToDecGo, h10],
          show natToDec n = natToDecGo n (n / 10) ++ [48 + n % 10] by
            simp [natToDec, natToDecGo, h10],
          ih1, ih2]
termination_by n
decreasing_by all_goals omega

theorem natToDec_unfold (n : Nat) :
    natToDec n = if n < 10 then [48 + n] else natToDec (n / 10) ++ [48 + n % 10] := by
  by_cases h : n < 10
  · simp [natToDec, natToDecGo, h]
  · rw [if_neg h, show natToDec n = natToDecGo n (n / 10) ++ [48 + n % 10] by
      simp [natToDec, natToDecGo, h], natToDecGo_fuel (n / 10) n (by omega)]

theorem digitsVal_natToDec (n : Nat) : digitsVal (natToDec n) = n := by
  rw [natToDec_unfold]
  by_cases h : n < 10
  · simp only [if_pos h, digitsVal, List.foldl_cons, List.foldl_nil]
    omega
  · rw [if_neg h, digitsVal_append, digitsVal_natToDec (n / 10)]
    omega
termination_by n
decreasing_by omega

theorem natToDec_digits (n : Nat) : ∀ d ∈ natToDec n, 48 ≤ d ∧ d ≤ 57 := by
  rw [natToDec_unfold]
  by_cases h : n < 10
  · simp only [if_pos h, List.mem_singleton]
    omega
  · rw [if_neg h]
    intro d hd
    rcases List.mem_append.mp hd with h1 | h1
    · exact natToDec_digits (n / 10) d h1
    · simp only [List.mem_singleton] at h1
      omega
termination_by n
decreasing_by omega

theorem natToDec_ne_nil (n : Nat) : natToDec n ≠ [] := by
  rw [natToDec_unfold]
  by_cases h : n < 10 <;> simp [h]

/-- Sign handling of `strtoul`: an optional single `+` or `-` before the digits. -/
def stripSign (s : List Nat) : List Nat × Bool :=
  match s with
  | [] => ([], false)
  | b :: r => if b = 43 then (r, false) else if b = 45 then (r, true) else (b :: r, false)

/-- `std::stoul` on a token (base 10): skip leading whitespace, read an
optional sign, then the longest digit run; `none` models the uncaught
`std::invalid_argument` / `std::out_of_range` exceptions; a negative
input wraps in 64-bit unsigned arithmetic as `strtoul` does. -/
def stoulB (s : List Nat) : Option Nat :=
  if (stripSign (s.dropWhile isSpaceB)).1.takeWhile isDigitB = [] then none
  else if 2 ^ 64 ≤ digitsVal ((stripSign (s.dropWhile isSpaceB)).1.takeWhile isDigitB) then none
  else if (stripSign (s.dropWhile isSpaceB)).2 then
    some ((2 ^ 64 - digitsVal ((stripSign (s.dropWhile isSpaceB)).1.takeWhile isDigitB)) % 2 ^ 64)
  else some (digitsVal ((stripSign (s.dropWhile isSpaceB)).1.takeWhile isDigitB))

theorem takeWhile_all {p : Nat → Bool} (l : List Nat) (h : ∀ b ∈ l, p b = true) :
    l.takeWhile p = l := by
  induction l with
  | nil => rfl
  | cons a t ih =>
      rw [List.takeWhile_cons, h a (by simp), ih (fun b hb => h b (by simp [hb]))]
      simp

theorem dropWhile_all_nil {p : Nat → Bool} (l : List Nat) (h : ∀ b ∈ l, p b = true) :
    l.dropWhile p = [] := by
  induction l with
  | nil => rfl
  | cons a t ih =>
      rw [List.dropWhile_cons, h a (by simp)]
      exact ih (fun b hb => h b (by simp [hb]))

theorem dropWhile_cons_neg {p : Nat → Bool} (a : Nat) (l : List Nat) (h : p a = false) :
    (a :: l).dropWhile p = a :: l := by
  rw [List.dropWhile_cons, h]
  simp

theorem stoulB_natToDec (n : Nat) (h : n < 2 ^ 64) : stoulB (natToDec n) = some n := by
  have hd := natToDec_digits n
  have hnn := natToDec_ne_nil n
  have hhead : ∃ a t, natToDec n = a :: t := by
    cases hnd : natToDec n with
    | nil => exact absurd hnd hnn
    | cons a t => exact ⟨a, t, rfl⟩
  obtain ⟨a, t, hat⟩ := hhead
  have ha : 48 ≤ a ∧ a ≤ 57 := hd a (by rw [hat]; simp)
  have hns : isSpaceB a = false := by
    unfold isSpaceB
    simp only [Bool.or_eq_false_iff, beq_eq_false_iff_ne, ne_eq]
    omega
  have h1 : (natToDec n).dropWhile isSpaceB = a :: t := by
    rw [hat]
    exact dropWhile_cons_neg a t hns
  have h2 : stripSign (a :: t) = (a :: t, false) := by
    show (if a = 43 then (t, false) else if a = 45 then (t, true) else (a :: t, false)) =
      (a :: t, false)
    rw [if_neg (show ¬a = 43 by omega), if_neg (show ¬a = 45 by omega)]
  have h3 : (a :: t).takeWhile isDigitB = natToDec n := by
    rw [← hat]
    refine takeWhile_all _ (fun b hb => ?_)
    have hb2 := hd b hb
    unfold isDigitB
    simp only [decide_eq_true_eq]
    omega
  have hlt : ¬ 2 ^ 64 ≤ n := by omega
  unfold stoulB
  rw [h1, h2]
  simp [h3, digitsVal_natToDec, hnn, hlt]
  omega

/-- `struct TreeState` of `main.cpp`: output / workspace tracked during the
depth-first walk of the i3 container tree. -/
structure TreeState where
  outputName : List Nat
  workspaceName : List Nat
  workspaceId : Nat
deriving DecidableEq, Repr

/-- `enum WindowIdentifier` of `main.cpp`. -/
inductive WindowIdentifier where
  | I3_ID
  | WINDOW_TITLE
deriving DecidableEq, Repr

/-- `struct CommandLineOptions` of `main.cpp`. -/
structure CommandLineOptions where
  debug : Bool
  failFast : Bool
  forceOutputMode : Bool
  encodeStrings : Bool
  windowIdentifier : WindowIdentifier
deriving DecidableEq, Repr

/-- The defaults set at the top of `parseOptions`. -/
def defaultOptions : CommandLineOptions :=
  ⟨false, true, false, true, WindowIdentifier.I3_ID⟩

/-- The relevant fields of `i3ipc::container_t`: kind string, name, i3 id,
native X window id, and the ordered child containers. -/
inductive Container where
  | mk (type : List Nat) (name : List Nat) (id : Nat) (xwindow_id : Nat)
      (nodes : List Container)

def Container.type : Container → List Nat
  | .mk t _ _ _ _ => t

def Container.name : Container → List Nat
  | .mk _ n _ _ _ => n

def Container.id : Container → Nat
  | .mk _ _ i _ _ => i

def Container.xwindow_id : Container → Nat
  | .mk _ _ _ x _ => x

def Container.nodes : Container → List Container
  | .mk _ _ _ _ ns => ns

/-- `isWindow` of `main.cpp`: `c.type == "con" && c.xwindow_id != 0`. -/
def isWindow (c : Container) : Bool :=
  c.type == bytes "con" && c.xwindow_id != 0

/-- `isValidParent` of `main.cpp`: `c.type != "dockarea"`. -/
def isValidParent (c : Container) : Bool :=
  c.type != bytes "dockarea"

/-- The textual safety transform applied to a name field before emission
(`options.encodeStrings` branch in `findWindows`). -/
def encodeField (opts : CommandLineOptions) (s : List Nat) : List Nat :=
  if opts.encodeStrings then base64_encode s else s

/-- The unit of persisted state ("CaptureRecord" in the spec). -/
structure CaptureRecord where
  outputName : List Nat
  workspaceName : List Nat
  workspaceId : Nat
  windowId : Nat
  windowTitle : List Nat
deriving DecidableEq, Repr

/-- The snapshot line printed by `findWindows` for one window (without the
trailing newline added by `endl`): encoded output name, encoded workspace
name, workspace id, window id, encoded window title, space-separated. -/
def encodeRecord (opts : CommandLineOptions) (r : CaptureRecord) : List Nat :=
  encodeField opts r.outputName ++ 32 :: encodeField opts r.workspaceName ++
    32 :: natToDec r.workspaceId ++ 32 :: natToDec r.windowId ++
    32 :: encodeField opts r.windowTitle

mutual
/-- `findWindows` of `main.cpp`.  The result is the updated traversal state
and the emitted snapshot lines; `Except.error 1` models
`cout << "Invalid tree state, aborting." << endl; exit(1)`. -/
def findWindows (c : Container) (st : TreeState) (opts : CommandLineOptions) :
    Except Nat (TreeState × List (List Nat)) :=
  match c with
  | .mk ty nm i xw ns =>
    let node :=
      if ty = bytes "output" then
        Except.ok ({ st with outputName := nm }, ([] : List (List Nat)))
      else if ty = bytes "workspace" then
        Except.ok ({ st with workspaceName := nm, workspaceId := i }, [])
      else if isWindow (.mk ty nm i xw ns) then
        if st.outputName = [] ∨ st.workspaceName = [] then Except.error 1
        else Except.ok (st, [encodeRecord opts ⟨st.outputName, st.workspaceName,
          st.workspaceId, i, nm⟩])
      else Except.ok (st, [])
    match node with
    | Except.error e => Except.error e
    | Except.ok (st1, out1) =>
      if isValidParent (.mk ty nm i xw ns) then
        match findWindowsList ns st1 opts with
        | Except.error e => Except.error e
        | Except.ok (st2, out2) => Except.ok (st2, out1 ++ out2)
      else Except.ok (st1, out1)

/-- The `for (auto &node : c.nodes)` loop of `findWindows`. -/
def findWindowsList (cs : List Container) (st : TreeState)
    (opts : CommandLineOptions) : Except Nat (TreeState × List (List Nat)) :=
  match cs with
  | [] => Except.ok (st, [])
  | c :: rest =>
    match findWindows c st opts with
    | Except.error e => Except.error e
    | Except.ok (st1, out1) =>
      match findWindowsList rest st1 opts with
      | Except.error e => Except.error e
      | Except.ok (st2, out2) => Except.ok (st2, out1 ++ out2)
end

/-- The workspace-move command string built by `moveWindow`. -/
def wsCmdOf (opts : CommandLineOptions) (workspaceId : Nat)
    (workspaceName outputName : List Nat) : List Nat :=
  match opts.windowIdentifier with
  | WindowIdentifier.I3_ID =>
      bytes "[con_id=" ++ natToDec workspaceId ++
        bytes "] move workspace to output " ++ outputName
  | WindowIdentifier.WINDOW_TITLE =>
      bytes "[workspace=\"" ++ workspaceName ++
        bytes "\"] move workspace to output " ++ outputName

/-- The window-move command string built by `moveWindow`. -/
def windowCmdOf (opts : CommandLineOptions) (windowId : Nat)
    (workspaceName windowTitle : List Nat) : List Nat :=
  match opts.windowIdentifier with
  | WindowIdentifier.I3_ID =>
      bytes "[con_id=" ++ natToDec windowId ++
        bytes "] move container to workspace \"" ++ workspaceName ++ bytes "\""
  | WindowIdentifier.WINDOW_TITLE =>
      bytes "[title=\"" ++ windowTitle ++
        bytes "\"] move container to workspace \"" ++ workspaceName ++ bytes "\""

/-- Observable behaviour of one `moveWindow` call: the debug lines printed,
the commands submitted through `send_command` (in order), and the returned
boolean. -/
structure MoveResult where
  echoed : List (List Nat)
  issued : List (List Nat)
  result : Bool
deriving DecidableEq, Repr

/-- `moveWindow` of `main.cpp`; `send` is the external
`i3ipc::connection::send_command` collaborator. -/
def moveWindow (send : List Nat → Bool) (windowId : Nat)
    (outputName workspaceName : List Nat) (workspaceId : Nat)
    (windowTitle : List Nat) (opts : CommandLineOptions) : MoveResult :=
  let wsCmd := wsCmdOf opts workspaceId workspaceName outputName
  let e1 : List (List Nat) := if opts.debug then [bytes "i3-msg " ++ wsCmd] else []
  if send wsCmd then
    let windowCmd := windowCmdOf opts windowId workspaceName windowTitle
    let e2 : List (List Nat) := if opts.debug then [bytes "i3-msg " ++ windowCmd] else []
    ⟨e1 ++ e2, [wsCmd, windowCmd], send windowCmd⟩
  else ⟨e1, [wsCmd], false⟩

/-- `std::cin` as the restore loop sees it: remaining bytes plus the
`eofbit` / `failbit` stream state. -/
structure IStream where
  data : List Nat
  eofbit : Bool
  failbit : Bool
deriving DecidableEq, Repr

/-- One `cin >> stringVar` extraction: if the stream is in a failed state
the variable is left unchanged; otherwise leading whitespace is skipped;
if the input runs out the extraction fails (setting `eofbit` and `failbit`,
variable unchanged), else the maximal non-whitespace token replaces the
variable, setting `eofbit` when the token is stopped by end of input. -/
def extract : IStream → List Nat → IStream × List Nat
  | ⟨data, e, fb⟩, cur =>
    if fb then (⟨data, e, fb⟩, cur)
    else
      match data.dropWhile isSpaceB with
      | [] => (⟨[], true, true⟩, cur)
      | b :: rest =>
          let tok := (b :: rest).takeWhile (fun x => !isSpaceB x)
          let rem := (b :: rest).dropWhile (fun x => !isSpaceB x)
          (⟨rem, rem.isEmpty, false⟩, tok)

/-- The five `string` variables of the restore loop in `main`, in
declaration order: `outputNameEnc`, `workspaceNameEnc`, `workspaceIdStr`,
`windowIdStr`, `windowNameEnc`. -/
structure LoopVars where
  o : List Nat
  w : List Nat
  i : List Nat
  x : List Nat
  t : List Nat
deriving DecidableEq, Repr

/-- `cin >> outputNameEnc >> workspaceNameEnc >> workspaceIdStr
>> windowIdStr >> windowNameEnc`. -/
def extract5 (st : IStream) (v : LoopVars) : IStream × LoopVars :=
  let p1 := extract st v.o
  let p2 := extract p1.1 v.w
  let p3 := extract p2.1 v.i
  let p4 := extract p3.1 v.x
  let p5 := extract p4.1 v.t
  (p5.1, ⟨p1.2, p2.2, p3.2, p4.2, p5.2⟩)

/-- Per-line decoding as the spec's `Decode(line)` contract frames the code
in the restore loop: five whitespace-separated tokens are extracted,
the three names base64-decoded and the two ids parsed as unsigned
integers; `none` is the `MalformedRecord` failure. -/
def decodeLine (line : List Nat) : Option CaptureRecord :=
  let p := extract5 ⟨line, false, false⟩ ⟨[], [], [], [], []⟩
  if p.1.failbit then none
  else
    match stoulB p.2.i, stoulB p.2.x with
    | some wsId, some winId =>
        some ⟨base64_decode p.2.o, base64_decode p.2.w, wsId, winId,
          base64_decode p.2.t⟩
    | _, _ => none

/-- One `moveWindow` call of the restore loop, with the decoded arguments. -/
structure Invocation where
  windowId : Nat
  outputName : List Nat
  workspaceName : List Nat
  workspaceId : Nat
  windowTitle : List Nat
deriving DecidableEq, Repr

/-- Outcome of the body of one restore-loop iteration: `abort` models an
uncaught `std::stoul` exception terminating the process. -/
inductive BodyResult where
  | abort
  | moved (inv : Invocation) (m : MoveResult)
deriving DecidableEq, Repr

/-- The body of the restore loop in `main`, after the five extractions:
`base64_decode` is applied to the three name fields and `stoul` to the two
id fields (in source order), then `moveWindow` is called. -/
def loopBody (send : List Nat → Bool) (opts : CommandLineOptions)
    (v : LoopVars) : BodyResult :=
  let outputName := base64_decode v.o
  let workspaceName := base64_decode v.w
  match stoulB v.i with
  | none => BodyResult.abort
  | some workspaceId =>
    let windowName := base64_decode v.t
    match stoulB v.x with
    | none => BodyResult.abort
    | some windowId =>
        BodyResult.moved ⟨windowId, outputName, workspaceName, workspaceId, windowName⟩
          (moveWindow send windowId outputName workspaceName workspaceId windowName opts)

/-- How a run of the restore loop ends: a `return` with an exit code, an
uncaught exception (`aborted`), or exhaustion of the step budget. -/
inductive RunResult where
  | exited (code : Nat)
  | aborted
  | fuelOut
deriving DecidableEq, Repr

/-- Observable behaviour of a restore run: its end state, the `moveWindow`
calls made, and all command strings submitted, in order. -/
structure RunTrace where
  result : RunResult
  invocations : List Invocation
  issued : List (List Nat)
deriving DecidableEq, Repr

/-- The `while (!cin.eof())` restore loop of `main`, with an explicit step
budget.  A failed record is logged and, under `failFast`, causes
`return 1`; otherwise the loop continues; reaching `eof` yields
`return 0`. -/
def runLoop (send : List Nat → Bool) (opts : CommandLineOptions) :
    Nat → IStream → LoopVars → RunTrace
  | 0, _, _ => ⟨RunResult.fuelOut, [], []⟩
  | fuel + 1, st, v =>
    if st.eofbit then ⟨RunResult.exited 0, [], []⟩
    else
      let p := extract5 st v
      match loopBody send opts p.2 with
      | BodyResult.abort => ⟨RunResult.aborted, [], []⟩
      | BodyResult.moved inv m =>
        if m.result = false ∧ opts.failFast then ⟨RunResult.exited 1, [inv], m.issued⟩
        else
          let rest := runLoop send opts fuel p.1 p.2
          ⟨rest.result, inv :: rest.invocations, m.issued ++ rest.issued⟩

/-- The restore mode of `main` on a whole standard input, with a step
budget large enough for the loop to reach its real end. -/
def runRestore (send : List Nat → Bool) (opts : CommandLineOptions)
    (input : List Nat) : RunTrace :=
  runLoop send opts (input.length + 1) ⟨input, false, false⟩ ⟨[], [], [], [], []⟩

theorem dropWhile_append_all {p : Nat → Bool} (w r : List Nat)
    (hw : ∀ b ∈ w, p b = true) : (w ++ r).dropWhile p = r.dropWhile p := by
  induction w with
  | nil => rfl
  | cons a t ih =>
      rw [List.cons_append, List.dropWhile_cons, hw a (by simp), if_pos rfl]
      exact ih (fun b hb => hw b (by simp [hb]))

theorem takeWhile_append_stop {p : Nat → Bool} (t d : List Nat)
    (ht : ∀ b ∈ t, p b = true) (hd : ∀ b, d.head? = some b → p b = false) :
    (t ++ d).takeWhile p = t := by
  induction t with
  | nil =>
      cases d with
      | nil => rfl
      | cons b d' =>
          rw [List.nil_append, List.takeWhile_cons, hd b rfl]
          simp
  | cons a t' ih =>
      rw [List.cons_append, List.takeWhile_cons, ht a (by simp), if_pos rfl,
        ih (fun b hb => ht b (by simp [hb]))]

theorem dropWhile_append_stop {p : Nat → Bool} (t d : List Nat)
    (ht : ∀ b ∈ t, p b = true) (hd : ∀ b, d.head? = some b → p b = false) :
    (t ++ d).dropWhile p = d := by
  induction t with
  | nil =>
      cases d with
      | nil => rfl
      | cons b d' =>
          rw [List.nil_append, List.dropWhile_cons, hd b rfl]
          simp
  | cons a t' ih =>
      rw [List.cons_append, List.dropWhile_cons, ht a (by simp), if_pos rfl,
        ih (fun b hb => ht b (by simp [hb]))]

/-- A successful token extraction: any run of whitespace, a nonempty
whitespace-free token, then a remainder that is empty or starts with
whitespace. -/
theorem extract_token (w t d : List Nat) (e : Bool) (cur : List Nat)
    (hw : ∀ b ∈ w, isSpaceB b = true)
    (ht0 : t ≠ []) (ht : ∀ b ∈ t, isSpaceB b = false)
    (hd : ∀ b, d.head? = some b → isSpaceB b = true) :
    extract ⟨w ++ (t ++ d), e, false⟩ cur = (⟨d, d.isEmpty, false⟩, t) := by
  obtain ⟨a, t', rfl⟩ : ∃ a t', t = a :: t' := by
    cases t with
    | nil => exact absurd rfl ht0
    | cons a t' => exact ⟨a, t', rfl⟩
  have hsc : ((w ++ ((a :: t') ++ d)).dropWhile isSpaceB) = a :: (t' ++ d) := by
    rw [dropWhile_append_all w _ hw, List.cons_append]
    exact dropWhile_cons_neg a (t' ++ d) (ht a (by simp))
  have htk : ((a :: (t' ++ d)).takeWhile (fun x => !isSpaceB x)) = a :: t' := by
    rw [show a :: (t' ++ d) = (a :: t') ++ d by simp]
    refine takeWhile_append_stop (a :: t') d (fun b hb => ?_) (fun b hb => ?_)
    · rw [ht b hb]; rfl
    · rw [hd b hb]; rfl
  have hdr : ((a :: (t' ++ d)).dropWhile (fun x => !isSpaceB x)) = d := by
    rw [show a :: (t' ++ d) = (a :: t') ++ d by simp]
    refine dropWhile_append_stop (a :: t') d (fun b hb => ?_) (fun b hb => ?_)
    · rw [ht b hb]; rfl
    · rw [hd b hb]; rfl
  simp only [extract, Bool.false_eq_true, if_false, hsc, htk, hdr]

/-- A failing extraction: only whitespace remains; `eofbit` and `failbit`
are set and the variable keeps its previous value. -/
theorem extract_fail (w : List Nat) (e : Bool) (cur : List Nat)
    (hw : ∀ b ∈ w, isSpaceB b = true) :
    extract ⟨w, e, false⟩ cur = (⟨[], true, true⟩, cur) := by
  simp only [extract, Bool.false_eq_true, if_false, dropWhile_all_nil w hw]

/-- Extraction on a failed stream leaves everything unchanged. -/
theorem extract_failbit (s : IStream) (cur : List Nat) (h : s.failbit = true) :
    extract s cur = (s, cur) := by
  obtain ⟨data, e, fb⟩ := s
  simp only [IStream.failbit] at h
  subst h
  rfl

/-- One snapshot line as five raw (still encoded) tokens. -/
structure RawLine where
  o : List Nat
  w : List Nat
  i : List Nat
  x : List Nat
  t : List Nat
deriving DecidableEq, Repr

/-- A nonempty whitespace-free token. -/
def goodTok (s : List Nat) : Prop := s ≠ [] ∧ ∀ b ∈ s, isSpaceB b = false

instance (s : List Nat) : Decidable (goodTok s) := by
  unfold goodTok
  infer_instance

/-- A line whose five tokens are nonempty and whitespace-free and whose two
id tokens parse as unsigned integers. -/
def WFLine (L : RawLine) : Prop :=
  goodTok L.o ∧ goodTok L.w ∧ goodTok L.i ∧ goodTok L.x ∧ goodTok L.t ∧
  (stoulB L.i).isSome = true ∧ (stoulB L.x).isSome = true

instance (L : RawLine) : Decidable (WFLine L) := by
  unfold WFLine
  infer_instance

/-- The characters of one snapshot line (without the trailing newline). -/
def lineOf (L : RawLine) : List Nat :=
  L.o ++ (32 :: (L.w ++ (32 :: (L.i ++ (32 :: (L.x ++ (32 :: L.t)))))))

/-- A whole snapshot input: each line followed by a newline. -/
def streamOf : List RawLine → List Nat
  | [] => []
  | L :: rest => lineOf L ++ (10 :: streamOf rest)

def varsOfLine (L : RawLine) : LoopVars := ⟨L.o, L.w, L.i, L.x, L.t⟩

/-- The `moveWindow` invocation the restore-loop body derives from the five
tokens of a (well-formed) line. -/
def invOfLine (L : RawLine) : Invocation :=
  ⟨(stoulB L.x).getD 0, base64_decode L.o, base64_decode L.w,
    (stoulB L.i).getD 0, base64_decode L.t⟩

/-- The two commands `moveWindow` submits for one fully processed line. -/
def cmdsOfLine (opts : CommandLineOptions) (L : RawLine) : List (List Nat) :=
  [wsCmdOf opts ((stoulB L.i).getD 0) (base64_decode L.w) (base64_decode L.o),
   windowCmdOf opts ((stoulB L.x).getD 0) (base64_decode L.w) (base64_decode L.t)]

theorem lineOf_append (L : RawLine) (d : List Nat) :
    lineOf L ++ d =
      L.o ++ (32 :: (L.w ++ (32 :: (L.i ++ (32 :: (L.x ++ (32 :: (L.t ++ d)))))))) := by
  simp [lineOf, List.append_assoc]

theorem extract5_tokens (w0 o w i x t d : List Nat) (e : Bool) (v : LoopVars)
    (hw0 : ∀ b ∈ w0, isSpaceB b = true)
    (ho : goodTok o) (hw : goodTok w) (hi : goodTok i) (hx : goodTok x)
    (ht : goodTok t) (hd : ∀ b, d.head? = some b → isSpaceB b = true) :
    extract5 ⟨w0 ++ (o ++ (32 :: (w ++ (32 :: (i ++ (32 :: (x ++ (32 :: (t ++ d))))))))), e,
      false⟩ v = (⟨d, d.isEmpty, false⟩, ⟨o, w, i, x, t⟩) := by
  have e1 : extract ⟨w0 ++ (o ++ (32 :: (w ++ (32 :: (i ++ (32 :: (x ++ (32 :: (t ++ d))))))))),
      e, false⟩ v.o =
      (⟨32 :: (w ++ (32 :: (i ++ (32 :: (x ++ (32 :: (t ++ d))))))),
        (32 :: (w ++ (32 :: (i ++ (32 :: (x ++ (32 :: (t ++ d)))))))).isEmpty, false⟩, o) :=
    extract_token w0 o _ e v.o hw0 ho.1 ho.2 (fun b hb => by
      simp only [List.head?_cons, Option.some.injEq] at hb
      subst hb
      rfl)
  have e2 : ∀ eb : Bool, extract ⟨32 :: (w ++ (32 :: (i ++ (32 :: (x ++ (32 :: (t ++ d))))))),
      eb, false⟩ v.w =
      (⟨32 :: (i ++ (32 :: (x ++ (32 :: (t ++ d))))),
        (32 :: (i ++ (32 :: (x ++ (32 :: (t ++ d)))))).isEmpty, false⟩, w) := fun eb =>
    extract_token [32] w _ eb v.w (by simp [isSpaceB]) hw.1 hw.2 (fun b hb => by
      simp only [List.head?_cons, Option.some.injEq] at hb
      subst hb
      rfl)
  have e3 : ∀ eb : Bool, extract ⟨32 :: (i ++ (32 :: (x ++ (32 :: (t ++ d))))), eb, false⟩ v.i =
      (⟨32 :: (x ++ (32 :: (t ++ d))), (32 :: (x ++ (32 :: (t ++ d)))).isEmpty, false⟩, i) :=
    fun eb =>
    extract_token [32] i _ eb v.i (by simp [isSpaceB]) hi.1 hi.2 (fun b hb => by
      simp only [List.head?_cons, Option.some.injEq] at hb
      subst hb
      rfl)
  have e4 : ∀ eb : Bool, extract ⟨32 :: (x ++ (32 :: (t ++ d))), eb, false⟩ v.x =
      (⟨32 :: (t ++ d), (32 :: (t ++ d)).isEmpty, false⟩, x) := fun eb =>
    extract_token [32] x _ eb v.x (by simp [isSpaceB]) hx.1 hx.2 (fun b hb => by
      simp only [List.head?_cons, Option.some.injEq] at hb
      subst hb
      rfl)
  have e5 : ∀ eb : Bool, extract ⟨32 :: (t ++ d), eb, false⟩ v.t =
      (⟨d, d.isEmpty, false⟩, t) := fun eb =>
    extract_token [32] t d eb v.t (by simp [isSpaceB]) ht.1 ht.2 hd
  simp only [extract5, e1, e2, e3, e4, e5]

/-- The five extractions on pure trailing whitespace: the first one fails,
the remaining four are no-ops; all variables keep their previous values. -/
theorem extract5_fail (w : List Nat) (e : Bool) (v : LoopVars)
    (hw : ∀ b ∈ w, isSpaceB b = true) :
    extract5 ⟨w, e, false⟩ v = (⟨[], true, true⟩, v) := by
  have e1 : extract ⟨w, e, false⟩ v.o = (⟨[], true, true⟩, v.o) := extract_fail w e v.o hw
  have e2 : ∀ cur, extract ⟨[], true, true⟩ cur = (⟨[], true, true⟩, cur) :=
    fun cur => extract_failbit _ cur rfl
  simp only [extract5, e1, e2]

theorem loopBody_wf (send : List Nat → Bool) (opts : CommandLineOptions)
    (L : RawLine) (hL : WFLine L) :
    loopBody send opts (varsOfLine L) =
      BodyResult.moved (invOfLine L)
        (moveWindow send ((stoulB L.x).getD 0) (base64_decode L.o) (base64_decode L.w)
          ((stoulB L.i).getD 0) (base64_decode L.t) opts) := by
  obtain ⟨vi, hvi⟩ := Option.isSome_iff_exists.mp hL.2.2.2.2.2.1
  obtain ⟨vx, hvx⟩ := Option.isSome_iff_exists.mp hL.2.2.2.2.2.2
  simp only [loopBody, varsOfLine, invOfLine, hvi, hvx, Option.getD_some]

theorem moveWindow_ok (send : List Nat → Bool) (hsend : ∀ c, send c = true)
    (windowId : Nat) (outputName workspaceName : List Nat) (workspaceId : Nat)
    (windowTitle : List Nat) (opts : CommandLineOptions) :
    (moveWindow send windowId outputName workspaceName workspaceId windowTitle opts).result =
        true ∧
      (moveWindow send windowId outputName workspaceName workspaceId windowTitle opts).issued =
        [wsCmdOf opts workspaceId workspaceName outputName,
          windowCmdOf opts windowId workspaceName windowTitle] := by
  unfold moveWindow
  simp [hsend]

theorem getLastD_cons' (a : RawLine) (l : List RawLine) (d : RawLine) :
    (a :: l).getLastD d = l.getLastD a := by
  cases l <;> simp [List.getLastD]

theorem getLast?_getD_cons (a : RawLine) (l : List RawLine) (d : RawLine) :
    ((a :: l).getLast?).getD d = l.getLast?.getD a := by
  cases l with
  | nil => rfl
  | cons b l' =>
      rw [List.getLast?_cons_cons]
      cases hc : (b :: l').getLast? with
      | none =>
          have h2 : (b :: l').getLast?.isSome = true := by
            rw [List.getLast?_isSome]
            simp
          rw [hc] at h2
          simp at h2
      | some y => rfl

/-- Core behaviour of the restore loop on a whitespace run followed by
well-formed lines, when every command succeeds: every line yields one
`moveWindow` call, and after the last line the loop runs once more on the
retained variable values before seeing `eof`. -/
theorem runLoop_aux (send : List Nat → Bool) (hsend : ∀ c, send c = true)
    (opts : CommandLineOptions) :
    ∀ (recs : List RawLine) (fuel : Nat) (w : List Nat) (L0 : RawLine) (v : LoopVars),
      (∀ L ∈ recs, WFLine L) → WFLine L0 →
      (∀ b ∈ w, isSpaceB b = true) →
      (recs = [] → v = varsOfLine L0 ∧ w ≠ []) →
      recs.length + 2 ≤ fuel →
      runLoop send opts fuel ⟨w ++ streamOf recs, false, false⟩ v =
        ⟨RunResult.exited 0, (recs ++ [recs.getLastD L0]).map invOfLine,
          ((recs ++ [recs.getLastD L0]).map (cmdsOfLine opts)).flatten⟩ := by
  intro recs
  induction recs with
  | nil =>
      intro fuel w L0 v hrecs hL0 hw hnil hfuel
      obtain ⟨hv, hwne⟩ := hnil rfl
      subst hv
      obtain ⟨f, rfl⟩ : ∃ f, fuel = (f + 1) + 1 := ⟨fuel - 2, by omega⟩
      rw [show (streamOf [] : List Nat) = [] from rfl, List.append_nil]
      have hex : extract5 ⟨w, false, false⟩ (varsOfLine L0) =
          (⟨[], true, true⟩, varsOfLine L0) := extract5_fail w false (varsOfLine L0) hw
      have hbody := loopBody_wf send opts L0 hL0
      have hmw := moveWindow_ok send hsend ((stoulB L0.x).getD 0) (base64_decode L0.o)
        (base64_decode L0.w) ((stoulB L0.i).getD 0) (base64_decode L0.t) opts
      simp [runLoop, hex, hbody, hmw.1, hmw.2, cmdsOfLine]
  | cons L rest ih =>
      intro fuel w L0 v hrecs hL0 hw hnil hfuel
      obtain ⟨f, rfl⟩ : ∃ f, fuel = f + 1 := ⟨fuel - 1, by omega⟩
      have hLwf : WFLine L := hrecs L (by simp)
      have hstream : w ++ streamOf (L :: rest) =
          w ++ (L.o ++ (32 :: (L.w ++ (32 :: (L.i ++ (32 :: (L.x ++
            (32 :: (L.t ++ (10 :: streamOf rest)))))))))) := by
        rw [show streamOf (L :: rest) = lineOf L ++ (10 :: streamOf rest) from rfl,
          lineOf_append]
      have hex : extract5 ⟨w ++ streamOf (L :: rest), false, false⟩ v =
          (⟨10 :: streamOf rest, (10 :: streamOf rest).isEmpty, false⟩, varsOfLine L) := by
        rw [hstream]
        exact extract5_tokens w L.o L.w L.i L.x L.t (10 :: streamOf rest) false v hw
          hLwf.1 hLwf.2.1 hLwf.2.2.1 hLwf.2.2.2.1 hLwf.2.2.2.2.1
          (fun b hb => by
            simp only [List.head?_cons, Option.some.injEq] at hb
            subst hb
            rfl)
      have hbody := loopBody_wf send opts L hLwf
      have hmw := moveWindow_ok send hsend ((stoulB L.x).getD 0) (base64_decode L.o)
        (base64_decode L.w) ((stoulB L.i).getD 0) (base64_decode L.t) opts
      have hrest : runLoop send opts f
          ⟨10 :: streamOf rest, false, false⟩ (varsOfLine L) =
          ⟨RunResult.exited 0, (rest ++ [rest.getLastD L]).map invOfLine,
            ((rest ++ [rest.getLastD L]).map (cmdsOfLine opts)).flatten⟩ := by
        rw [show (10 : Nat) :: streamOf rest = [10] ++ streamOf rest from rfl]
        refine ih f [10] L (varsOfLine L) (fun L2 h2 => hrecs L2 (by simp [h2])) hLwf
          ?_ (fun _ => ⟨rfl, by simp⟩) ?_
        · intro b hb
          simp only [List.mem_singleton] at hb
          subst hb
          rfl
        · have := hfuel
          simp only [List.length_cons] at this
          omega
      simp [runLoop, hex, hbody, hmw.1, hmw.2, hrest, cmdsOfLine, getLastD_cons',
        getLast?_getD_cons]

/-- C2: for every record processed by the restore path, the window-move
command is never submitted unless the workspace-move command for that same
record was submitted first and returned success; when the workspace-move
returns failure, `moveWindow` returns false without attempting the second
command. -/
theorem moveWindow_requires_ws_success (send : List Nat → Bool) (windowId : Nat)
    (outputName workspaceName : List Nat) (workspaceId : Nat) (windowTitle : List Nat)
    (opts : CommandLineOptions) :
    (send (wsCmdOf opts workspaceId workspaceName outputName) = false →
      (moveWindow send windowId outputName workspaceName workspaceId windowTitle
          opts).result = false ∧
        (moveWindow send windowId outputName workspaceName workspaceId windowTitle
          opts).issued = [wsCmdOf opts workspaceId workspaceName outputName]) ∧
    ((moveWindow send windowId outputName workspaceName workspaceId windowTitle
        opts).issued = [wsCmdOf opts workspaceId workspaceName outputName] ∨
      ((moveWindow send windowId outputName workspaceName workspaceId windowTitle
          opts).issued = [wsCmdOf opts workspaceId workspaceName outputName,
            windowCmdOf opts windowId workspaceName windowTitle] ∧
        send (wsCmdOf opts workspaceId workspaceName outputName) = true)) := by
  unfold moveWindow
  cases hs : send (wsCmdOf opts workspaceId workspaceName outputName) with
  | false => simp [hs]
  | true => simp [hs]

/-- Witness for C2 at a concrete input where the workspace-move fails. -/
theorem moveWindow_requires_ws_success_witness :
    (moveWindow (fun _ => false) 1 (bytes "O") (bytes "W") 2 (bytes "T")
        defaultOptions).result = false ∧
      (moveWindow (fun _ => false) 1 (bytes "O") (bytes "W") 2 (bytes "T")
        defaultOptions).issued = [wsCmdOf defaultOptions 2 (bytes "W") (bytes "O")] :=
  (moveWindow_requires_ws_success (fun _ => false) 1 (bytes "O") (bytes "W") 2
    (bytes "T") defaultOptions).1 rfl

/-- C8 counterexample: with debug enabled and a failing workspace-move, the
window-move command string is never echoed — only the workspace-move echo
appears — so "both constructed command strings are echoed regardless of
outcome" is false on the code. -/
theorem moveWindow_debug_echo_counterexample :
    (moveWindow (fun _ => false) 1 (bytes "O") (bytes "W") 2 (bytes "T")
        ⟨true, true, false, true, WindowIdentifier.I3_ID⟩).echoed =
      [bytes "i3-msg " ++
        wsCmdOf ⟨true, true, false, true, WindowIdentifier.I3_ID⟩ 2 (bytes "W")
          (bytes "O")] ∧
    ∀ e ∈ (moveWindow (fun _ => false) 1 (bytes "O") (bytes "W") 2 (bytes "T")
        ⟨true, true, false, true, WindowIdentifier.I3_ID⟩).echoed,
      e ≠ bytes "i3-msg " ++
        windowCmdOf ⟨true, true, false, true, WindowIdentifier.I3_ID⟩ 1 (bytes "W")
          (bytes "T") := by
  decide

/-- C8 (amended): with debug enabled, each command string is echoed exactly
when (and immediately before) it is submitted; in particular the
window-move string is echoed only if the workspace-move succeeded. -/
theorem moveWindow_debug_echoes_submitted (send : List Nat → Bool) (windowId : Nat)
    (outputName workspaceName : List Nat) (workspaceId : Nat) (windowTitle : List Nat)
    (opts : CommandLineOptions) (h : opts.debug = true) :
    (moveWindow send windowId outputName workspaceName workspaceId windowTitle
        opts).echoed =
      (moveWindow send windowId outputName workspaceName workspaceId windowTitle
        opts).issued.map (fun c => bytes "i3-msg " ++ c) := by
  unfold moveWindow
  cases hs : send (wsCmdOf opts workspaceId workspaceName outputName) with
  | false => simp [hs, h]
  | true => simp [hs, h]

/-- Witness for the amended C8 at a concrete input. -/
theorem moveWindow_debug_echoes_submitted_witness :
    (moveWindow (fun _ => false) 1 (bytes "O") (bytes "W") 2 (bytes "T")
        ⟨true, true, false, true, WindowIdentifier.I3_ID⟩).echoed =
      (moveWindow (fun _ => false) 1 (bytes "O") (bytes "W") 2 (bytes "T")
        ⟨true, true, false, true, WindowIdentifier.I3_ID⟩).issued.map
        (fun c => bytes "i3-msg " ++ c) :=
  moveWindow_debug_echoes_submitted (fun _ => false) 1 (bytes "O") (bytes "W") 2
    (bytes "T") ⟨true, true, false, true, WindowIdentifier.I3_ID⟩ rfl

/-- C7: the subtree below a `dockarea` node is never visited: `findWindows`
on a dockarea container leaves the traversal state unchanged and emits no
record, whatever its children are — even if a node inside the subtree
satisfies the window predicate. -/
theorem findWindows_dockarea (nm : List Nat) (i xw : Nat) (ns : List Container)
    (st : TreeState) (opts : CommandLineOptions) :
    findWindows (Container.mk (bytes "dockarea") nm i xw ns) st opts =
      Except.ok (st, []) := by
  have hwin : isWindow (Container.mk (bytes "dockarea") nm i xw ns) = false := rfl
  have hpar : isValidParent (Container.mk (bytes "dockarea") nm i xw ns) = false := rfl
  simp only [findWindows]
  rw [if_neg (show ¬ bytes "dockarea" = bytes "output" from by decide),
    if_neg (show ¬ bytes "dockarea" = bytes "workspace" from by decide),
    if_neg (show ¬ isWindow (Container.mk (bytes "dockarea") nm i xw ns) = true from by
      simp [hwin])]
  simp [hpar]

/-- C6: visiting a window node while the tracked output name or workspace
name is still empty makes the traversal fail fatally with exit code 1
(`Invalid tree state`), emitting no record; and a tree containing such a
window halts at it — the result is `error 1` regardless of any sibling
nodes that would come after it. -/
theorem findWindows_invalid_tree_state (c : Container) (st : TreeState)
    (opts : CommandLineOptions) (hwin : isWindow c = true)
    (hempty : st.outputName = [] ∨ st.workspaceName = []) :
    findWindows c st opts = Except.error 1 ∧
      ∀ (nm2 : List Nat) (i2 : Nat) (rest : List Container),
        findWindows (Container.mk (bytes "con") nm2 i2 0 (c :: rest)) st opts =
          Except.error 1 := by
  obtain ⟨ty, nm, i, xw, ns⟩ := c
  have hty : ty = bytes "con" := by
    have h2 := hwin
    unfold isWindow Container.type Container.xwindow_id at h2
    rw [Bool.and_eq_true, beq_iff_eq] at h2
    exact h2.1
  subst hty
  have hfirst : findWindows (Container.mk (bytes "con") nm i xw ns) st opts =
      Except.error 1 := by
    simp only [findWindows]
    rw [if_neg (show ¬ bytes "con" = bytes "output" from by decide),
      if_neg (show ¬ bytes "con" = bytes "workspace" from by decide),
      if_pos hwin, if_pos hempty]
  refine ⟨hfirst, fun nm2 i2 rest => ?_⟩
  have hnw : isWindow (Container.mk (bytes "con") nm2 i2 0
      ((Container.mk (bytes "con") nm i xw ns) :: rest)) = false := rfl
  simp only [findWindows]
  rw [if_neg (show ¬ bytes "con" = bytes "output" from by decide),
    if_neg (show ¬ bytes "con" = bytes "workspace" from by decide)]
  rw [hnw]
  simp only [Bool.false_eq_true, if_false]
  rw [show isValidParent (Container.mk (bytes "con") nm2 i2 0
    ((Container.mk (bytes "con") nm i xw ns) :: rest)) = true from rfl]
  simp only [if_true, findWindowsList, hfirst]

/-- Witness for C6: a concrete bare window visited with empty traversal
state. -/
theorem findWindows_invalid_tree_state_witness :
    findWindows (Container.mk (bytes "con") (bytes "term") 7 99 []) ⟨[], [], 0⟩
        defaultOptions = Except.error 1 ∧
      ∀ (nm2 : List Nat) (i2 : Nat) (rest : List Container),
        findWindows (Container.mk (bytes "con") nm2 i2 0
          ((Container.mk (bytes "con") (bytes "term") 7 99 []) :: rest)) ⟨[], [], 0⟩
          defaultOptions = Except.error 1 :=
  findWindows_invalid_tree_state (Container.mk (bytes "con") (bytes "term") 7 99 [])
    ⟨[], [], 0⟩ defaultOptions (by decide) (Or.inl rfl)

/-- The five tokens of the line `encodeRecord` produces. -/
def rawOfRecord (opts : CommandLineOptions) (r : CaptureRecord) : RawLine :=
  ⟨encodeField opts r.outputName, encodeField opts r.workspaceName,
    natToDec r.workspaceId, natToDec r.windowId, encodeField opts r.windowTitle⟩

theorem encodeRecord_eq_lineOf (opts : CommandLineOptions) (r : CaptureRecord) :
    encodeRecord opts r = lineOf (rawOfRecord opts r) := by
  simp [encodeRecord, lineOf, rawOfRecord, List.append_assoc]

theorem isSpaceB_digit (d : Nat) (h : 48 ≤ d ∧ d ≤ 57) : isSpaceB d = false := by
  unfold isSpaceB
  simp only [Bool.or_eq_false_iff, beq_eq_false_iff_ne, ne_eq]
  omega

theorem goodTok_natToDec (n : Nat) : goodTok (natToDec n) :=
  ⟨natToDec_ne_nil n, fun b hb => isSpaceB_digit b (natToDec_digits n b hb)⟩

theorem goodTok_base64 (s : List Nat) (h : s ≠ []) : goodTok (base64_encode s) :=
  ⟨base64_encode_ne_nil s h, fun b hb => base64_encode_not_space s b hb⟩

/-- Decoding a line made of five good tokens recovers the tokens and applies
`base64_decode` / `stoul` exactly as the restore loop does. -/
theorem decodeLine_lineOf (L : RawLine) (ho : goodTok L.o) (hw : goodTok L.w)
    (hi : goodTok L.i) (hx : goodTok L.x) (ht : goodTok L.t)
    (wsId winId : Nat) (hsi : stoulB L.i = some wsId) (hsx : stoulB L.x = some winId) :
    decodeLine (lineOf L) = some ⟨base64_decode L.o, base64_decode L.w, wsId, winId,
      base64_decode L.t⟩ := by
  have hshape : lineOf L =
      [] ++ (L.o ++ (32 :: (L.w ++ (32 :: (L.i ++ (32 :: (L.x ++
        (32 :: (L.t ++ ([] : List Nat)))))))))) := by
    simp [lineOf]
  have hex : extract5 ⟨lineOf L, false, false⟩ ⟨[], [], [], [], []⟩ =
      (⟨[], ([] : List Nat).isEmpty, false⟩, ⟨L.o, L.w, L.i, L.x, L.t⟩) := by
    rw [hshape]
    exact extract5_tokens [] L.o L.w L.i L.x L.t [] false ⟨[], [], [], [], []⟩
      (by simp) ho hw hi hx ht (by simp)
  unfold decodeLine
  rw [hex]
  simp [hsi, hsx]

/-- C1 counterexample: for the record with empty window title (the claim
quantifies over records with empty-string names), encoding and then
decoding does not give the record back — the encoded line has only four
tokens, so decoding fails as a malformed record. -/
theorem decode_encode_empty_title_counterexample :
    decodeLine (encodeRecord defaultOptions
        ⟨bytes "A", bytes "B", 1, 2, []⟩) = none ∧
      decodeLine (encodeRecord defaultOptions ⟨bytes "A", bytes "B", 1, 2, []⟩) ≠
        some ⟨bytes "A", bytes "B", 1, 2, []⟩ := by
  decide

/-- C1 (amended): for every record whose three name fields are nonempty
byte strings and whose ids fit in 64 bits, decoding the line produced by
encoding the record in the default (base64) mode yields the record back,
including names with spaces and non-ASCII bytes. -/
theorem decode_encode_record (opts : CommandLineOptions) (r : CaptureRecord)
    (henc : opts.encodeStrings = true)
    (ho : r.outputName ≠ []) (hw : r.workspaceName ≠ []) (ht : r.windowTitle ≠ [])
    (hob : ∀ b ∈ r.outputName, b < 256) (hwb : ∀ b ∈ r.workspaceName, b < 256)
    (htb : ∀ b ∈ r.windowTitle, b < 256)
    (hid1 : r.workspaceId < 2 ^ 64) (hid2 : r.windowId < 2 ^ 64) :
    decodeLine (encodeRecord opts r) = some r := by
  obtain ⟨ro, rw2, rwsId, rwinId, rt⟩ := r
  have hef : ∀ s, encodeField opts s = base64_encode s := fun s => by
    simp [encodeField, henc]
  have hraw : rawOfRecord opts ⟨ro, rw2, rwsId, rwinId, rt⟩ =
      ⟨base64_encode ro, base64_encode rw2, natToDec rwsId, natToDec rwinId,
        base64_encode rt⟩ := by
    simp [rawOfRecord, hef]
  rw [encodeRecord_eq_lineOf, hraw]
  rw [decodeLine_lineOf ⟨base64_encode ro, base64_encode rw2, natToDec rwsId,
    natToDec rwinId, base64_encode rt⟩ (goodTok_base64 ro ho) (goodTok_base64 rw2 hw)
    (goodTok_natToDec _) (goodTok_natToDec _) (goodTok_base64 rt ht)
    rwsId rwinId (stoulB_natToDec _ hid1) (stoulB_natToDec _ hid2)]
  simp [base64_decode_encode ro hob, base64_decode_encode rw2 hwb,
    base64_decode_encode rt htb]

/-- Witness for the amended C1 at a record with a space and a non-ASCII
byte in its names. -/
theorem decode_encode_record_witness :
    decodeLine (encodeRecord defaultOptions
        ⟨bytes "eDP-1", 233 :: bytes " 2", 10, 100, bytes "my term"⟩) =
      some ⟨bytes "eDP-1", 233 :: bytes " 2", 10, 100, bytes "my term"⟩ :=
  decode_encode_record defaultOptions
    ⟨bytes "eDP-1", 233 :: bytes " 2", 10, 100, bytes "my term"⟩ rfl
    (by decide) (by decide) (by decide) (by decide) (by decide) (by decide)
    (by decide) (by decide)

/-- C4 counterexample: in raw-strings mode the title `"my window"` is
emitted verbatim — the internal space is NOT replaced by an underscore —
and decoding the resulting line does not yield `"my_window"`. -/
theorem raw_mode_counterexample :
    encodeRecord ⟨false, true, false, false, WindowIdentifier.I3_ID⟩
        ⟨bytes "O", bytes "W", 1, 2, bytes "my window"⟩ = bytes "O W 1 2 my window" ∧
      (decodeLine (encodeRecord ⟨false, true, false, false, WindowIdentifier.I3_ID⟩
          ⟨bytes "O", bytes "W", 1, 2, bytes "my window"⟩)).map
          CaptureRecord.windowTitle ≠ some (bytes "my_window") := by
  decide

/-- C4 (amended): in raw-strings mode, `encodeRecord` emits the three name
fields verbatim, with no character replacement at all — internal spaces are
preserved in the emitted line. -/
theorem encodeRecord_raw (opts : CommandLineOptions) (r : CaptureRecord)
    (h : opts.encodeStrings = false) :
    encodeRecord opts r =
      r.outputName ++ (32 :: (r.workspaceName ++ (32 :: (natToDec r.workspaceId ++
        (32 :: (natToDec r.windowId ++ (32 :: r.windowTitle))))))) := by
  simp [encodeRecord, encodeField, h, List.append_assoc]

/-- Witness for the amended C4 on the `"my window"` record. -/
theorem encodeRecord_raw_witness :
    encodeRecord ⟨false, true, false, false, WindowIdentifier.I3_ID⟩
        ⟨bytes "O", bytes "W", 1, 2, bytes "my window"⟩ =
      bytes "O" ++ (32 :: (bytes "W" ++ (32 :: (natToDec 1 ++
        (32 :: (natToDec 2 ++ (32 :: bytes "my window"))))))) :=
  encodeRecord_raw ⟨false, true, false, false, WindowIdentifier.I3_ID⟩
    ⟨bytes "O", bytes "W", 1, 2, bytes "my window"⟩ rfl

theorem loopBody_opts_encodeStrings (send : List Nat → Bool) (d ff fo es b : Bool)
    (wi : WindowIdentifier) (v : LoopVars) :
    loopBody send ⟨d, ff, fo, b, wi⟩ v = loopBody send ⟨d, ff, fo, es, wi⟩ v := by
  cases hsi : stoulB v.i with
  | none => simp [loopBody, hsi]
  | some wsId =>
      cases hsx : stoulB v.x with
      | none => simp [loopBody, hsi, hsx]
      | some winId =>
          cases wi <;> simp [loopBody, hsi, hsx, moveWindow, wsCmdOf, windowCmdOf]

theorem runLoop_encodeStrings (send : List Nat → Bool) (d ff fo es b : Bool)
    (wi : WindowIdentifier) :
    ∀ (fuel : Nat) (st : IStream) (v : LoopVars),
      runLoop send ⟨d, ff, fo, b, wi⟩ fuel st v =
        runLoop send ⟨d, ff, fo, es, wi⟩ fuel st v := by
  intro fuel
  induction fuel with
  | zero => intro st v; rfl
  | succ f ih =>
      intro st v
      simp only [runLoop]
      rw [loopBody_opts_encodeStrings send d ff fo es b wi (extract5 st v).2]
      cases hres : loopBody send ⟨d, ff, fo, es, wi⟩ (extract5 st v).2 with
      | abort => rfl
      | moved inv m => simp only [ih]

/-- C9: in restore mode the decode step is independent of the raw-strings
option — the whole restore loop behaves identically for any value of
`encodeStrings` — and the names passed to `moveWindow` are always the
`base64_decode` of the corresponding input fields. -/
theorem restore_decode_unconditional (send : List Nat → Bool)
    (opts : CommandLineOptions) (b : Bool) (fuel : Nat) (st : IStream) (v : LoopVars) :
    runLoop send ⟨opts.debug, opts.failFast, opts.forceOutputMode, b,
        opts.windowIdentifier⟩ fuel st v = runLoop send opts fuel st v ∧
      (∀ inv m, loopBody send opts v = BodyResult.moved inv m →
        inv.outputName = base64_decode v.o ∧ inv.workspaceName = base64_decode v.w ∧
          inv.windowTitle = base64_decode v.t) := by
  constructor
  · obtain ⟨d, ff, fo, es, wi⟩ := opts
    exact runLoop_encodeStrings send d ff fo es b wi fuel st v
  · intro inv m h
    simp only [loopBody] at h
    cases hsi : stoulB v.i with
    | none =>
        rw [hsi] at h
        exact absurd h (by simp)
    | some wsId =>
        rw [hsi] at h
        cases hsx : stoulB v.x with
        | none =>
            rw [hsx] at h
            exact absurd h (by simp)
        | some winId =>
            rw [hsx] at h
            simp only [BodyResult.moved.injEq] at h
            rw [← h.1]
            exact ⟨rfl, rfl, rfl⟩

/-- Witness for C9: a concrete line whose decoded names are the base64
decodings of its fields. -/
theorem restore_decode_unconditional_witness :
    (⟨2, bytes "A", bytes "B", 1, bytes "T"⟩ : Invocation).outputName =
        base64_decode (bytes "QQ==") ∧
      (⟨2, bytes "A", bytes "B", 1, bytes "T"⟩ : Invocation).workspaceName =
        base64_decode (bytes "Qg==") ∧
      (⟨2, bytes "A", bytes "B", 1, bytes "T"⟩ : Invocation).windowTitle =
        base64_decode (bytes "VA==") :=
  (restore_decode_unconditional (fun _ => true) defaultOptions true 0
      ⟨[], false, false⟩ ⟨bytes "QQ==", bytes "Qg==", bytes "1", bytes "2",
        bytes "VA=="⟩).2
    ⟨2, bytes "A", bytes "B", 1, bytes "T"⟩
    (moveWindow (fun _ => true) 2 (bytes "A") (bytes "B") 1 (bytes "T") defaultOptions)
    (by decide)

theorem streamOf_length (recs : List RawLine) (h : ∀ L ∈ recs, WFLine L) :
    10 * recs.length ≤ (streamOf recs).length := by
  induction recs with
  | nil => simp [streamOf]
  | cons L rest ih =>
      have hL := h L (by simp)
      have h1 : 0 < L.o.length := List.length_pos.mpr hL.1.1
      have h2 : 0 < L.w.length := List.length_pos.mpr hL.2.1.1
      have h3 : 0 < L.i.length := List.length_pos.mpr hL.2.2.1.1
      have h4 : 0 < L.x.length := List.length_pos.mpr hL.2.2.2.1.1
      have h5 : 0 < L.t.length := List.length_pos.mpr hL.2.2.2.2.1.1
      have hrest := ih (fun L2 hl2 => h L2 (by simp [hl2]))
      simp only [streamOf, lineOf, List.length_append, List.length_cons, List.length_nil]
      omega

/-- C10: for a restore input of well-formed record lines each ended by a
newline, with all commands succeeding, the `while (!cin.eof())` loop runs
one extra iteration after the last line in which the extractions fail and
the variables keep their previous values, so `moveWindow` is invoked N+1
times and the last record's command pair is submitted twice. -/
theorem restore_duplicates_last_record (send : List Nat → Bool)
    (opts : CommandLineOptions) (r : RawLine) (rest : List RawLine)
    (hwf : ∀ L ∈ r :: rest, WFLine L) (hsend : ∀ c, send c = true) :
    runRestore send opts (streamOf (r :: rest)) =
      ⟨RunResult.exited 0, ((r :: rest) ++ [(r :: rest).getLastD r]).map invOfLine,
        (((r :: rest) ++ [(r :: rest).getLastD r]).map (cmdsOfLine opts)).flatten⟩ := by
  have hlen : 10 * (r :: rest).length ≤ (streamOf (r :: rest)).length :=
    streamOf_length _ hwf
  have hfuel : (r :: rest).length + 2 ≤ (streamOf (r :: rest)).length + 1 := by
    simp only [List.length_cons] at hlen ⊢
    omega
  unfold runRestore
  exact runLoop_aux send hsend opts (r :: rest) _ [] r ⟨[], [], [], [], []⟩ hwf
    (hwf r (by simp)) (by simp) (by simp) hfuel

/-- Two well-formed sample snapshot lines (base64 of "A", "B", "T"). -/
def wfLineA : RawLine := ⟨bytes "QQ==", bytes "Qg==", bytes "1", bytes "2", bytes "VA=="⟩

def wfLineB : RawLine := ⟨bytes "QQ==", bytes "Qg==", bytes "3", bytes "4", bytes "VA=="⟩

/-- Witness for C10 on a concrete two-line input: three `moveWindow`
invocations, the last line's twice. -/
theorem restore_duplicates_last_record_witness :
    runRestore (fun _ => true) defaultOptions (streamOf [wfLineA, wfLineB]) =
      ⟨RunResult.exited 0,
        (([wfLineA, wfLineB] ++ [([wfLineA, wfLineB] : List RawLine).getLastD wfLineA]).map
          invOfLine),
        ((([wfLineA, wfLineB] ++
          [([wfLineA, wfLineB] : List RawLine).getLastD wfLineA]).map
            (cmdsOfLine defaultOptions)).flatten)⟩ :=
  restore_duplicates_last_record (fun _ => true) defaultOptions wfLineA [wfLineB]
    (by decide) (fun c => rfl)

/-- The three-record restore stream of the spec's fail-fast vs continue
scenario, with record 2's workspace-move command failing. -/
def rec1 : RawLine := ⟨bytes "QQ==", bytes "Qg==", bytes "1", bytes "101", bytes "VA=="⟩

def rec2 : RawLine := ⟨bytes "QQ==", bytes "Qg==", bytes "2", bytes "102", bytes "VA=="⟩

def rec3 : RawLine := ⟨bytes "QQ==", bytes "Qg==", bytes "3", bytes "103", bytes "VA=="⟩

def contOptions : CommandLineOptions := ⟨false, false, false, true, WindowIdentifier.I3_ID⟩

def input3 : List Nat := streamOf [rec1, rec2, rec3]

/-- A command oracle failing exactly on record 2's workspace-move. -/
def sendFail2 : List Nat → Bool :=
  fun c => !(c == bytes "[con_id=2] move workspace to output A")

/-- C3 counterexample: in continue-on-error mode, with record 2's
workspace-move failing, the process still issues record 3's commands but
exits with code 0 at end-of-stream — not non-zero as the claim states. -/
theorem continue_mode_exit_counterexample :
    (runRestore sendFail2 contOptions input3).result = RunResult.exited 0 ∧
      (runRestore sendFail2 contOptions input3).invocations =
        [invOfLine rec1, invOfLine rec2, invOfLine rec3, invOfLine rec3] := by
  decide

/-- C3 (amended): in continue-on-error mode a failed record is logged and
later records' commands are still issued, but the process exits 0 at
end-of-stream even though a record failed; in fail-fast mode the process
exits 1 immediately on the first failed record and issues no commands for
later records. -/
theorem failfast_vs_continue :
    (runRestore sendFail2 contOptions input3).result = RunResult.exited 0 ∧
      (runRestore sendFail2 contOptions input3).issued =
        [bytes "[con_id=1] move workspace to output A",
          bytes "[con_id=101] move container to workspace \"B\"",
          bytes "[con_id=2] move workspace to output A",
          bytes "[con_id=3] move workspace to output A",
          bytes "[con_id=103] move container to workspace \"B\"",
          bytes "[con_id=3] move workspace to output A",
          bytes "[con_id=103] move container to workspace \"B\""] ∧
      (runRestore sendFail2 defaultOptions input3).result = RunResult.exited 1 ∧
      (runRestore sendFail2 defaultOptions input3).issued =
        [bytes "[con_id=1] move workspace to output A",
          bytes "[con_id=101] move container to workspace \"B\"",
          bytes "[con_id=2] move workspace to output A"] := by
  decide

/-- A snapshot line whose workspace-id field is not numeric. -/
def badLine : RawLine := ⟨bytes "QQ==", bytes "Qg==", bytes "x", bytes "5", bytes "VA=="⟩

/-- C5: a restore line whose workspaceId field is non-numeric makes the
process abort through an uncaught `std::stoul` exception under BOTH
failure policies — the malformed record is not handled as a record-level
failure subject to the fail-fast/continue policy. -/
theorem malformed_record_aborts_both_policies :
    (runRestore (fun _ => true) defaultOptions (streamOf [badLine])).result =
        RunResult.aborted ∧
      (runRestore (fun _ => true) contOptions (streamOf [badLine])).result =
        RunResult.aborted := by
  decide
